import Mathlib

/- Shallow embedding of src/Vaultrunner.c and verification of its spec.

The whole source program is:

  int main(int argc, char *argv[]) {
      char command[1024] = "python3 main.py";
      for (int i = 1; i < argc; i++) {
          strcat(command, " ");
          strcat(command, argv[i]);
      }
      int ret = system(command);
      return ret;
  }

Model: the argument list (argv[1..]) is a List String; the strcat loop is a
fold appending a space and the argument; system() is abstracted by a function
from the command string to a child outcome, whose POSIX wait status is the
value system() returns; the process exit code is the low eight bits of the
value returned from main. Shell word splitting of the command string is
modelled for the space character (quoting and operator metacharacters are not
modelled): for commands free of such metacharacters this yields the argument
vector the child receives.
-/

/-- Contents of the command buffer before the loop: the string literal at line 8 of the source. -/
def initialCommand : String := "python3 main.py"

/-- Fixed size of the command buffer, from the declaration char command[1024] at line 8. -/
def bufferSize : Nat := 1024

/-- Embedding of the strcat loop at lines 11 to 14: starting from the initial buffer contents, append one space and then the argument, for each argument in order. -/
def buildCommand (args : List String) : String :=
  args.foldl (fun cmd a => cmd ++ " " ++ a) initialCommand

/-- Word splitting helper: splits a character list on space characters, discarding empty fields; the accumulator holds the current field reversed. -/
def splitAux : List Char → List Char → List (List Char)
  | [], acc => if acc = [] then [] else [acc.reverse]
  | c :: cs, acc =>
    if c = ' ' then
      if acc = [] then splitAux cs [] else acc.reverse :: splitAux cs []
    else
      splitAux cs (c :: acc)

/-- Model of POSIX shell word splitting applied to the command string that system() hands to the shell: fields are maximal runs of non space characters. For command strings free of quoting and operator metacharacters this is the argument vector of the child process. -/
def shellFields (s : String) : List String :=
  (splitAux s.data []).map String.mk

/-- Possible outcome of the child side of the system() call. -/
inductive ChildOutcome where
  | exited (code : Nat)
  | signaled (sig : Nat)
  | execFailed
  | spawnFailed
deriving DecidableEq

/-- Wait status returned by system() for each child outcome, per POSIX: a normal exit with code N yields N (mod 256) shifted left by eight bits; termination by signal s yields s (low seven bits); when the shell cannot locate or execute the command the shell itself exits 127, so the status is 127 shifted left by eight bits; when the shell cannot be spawned system() returns minus one. -/
def waitStatus : ChildOutcome → Int
  | .exited code => ((code : Int) % 256) * 256
  | .signaled sig => (sig : Int) % 128
  | .execFailed => 127 * 256
  | .spawnFailed => -1

/-- Exit code of the process when main returns r: the low eight bits of r. -/
def processExitCode (r : Int) : Int := r % 256

/-- Externally visible actions of the process, recorded in the effect trace of the embedding. The source contains no output statement of its own, so only system effects ever occur in the trace. -/
inductive Effect where
  | system (cmd : String)
  | writeStdout (msg : String)
  | writeStderr (msg : String)
deriving DecidableEq

/-- Statement by statement embedding of main, lines 8 to 18 of the source: build the command string, perform the single system() call, and return the raw status unchanged. The first component is the trace of effects (exactly the one system call; the source performs no write of its own) and the second is the value returned from main. The environment is abstracted by sys, which gives the child outcome for a command string. -/
def vaultMain (sys : String → ChildOutcome) (args : List String) : List Effect × Int :=
  let command := buildCommand args
  let ret := waitStatus (sys command)
  ([Effect.system command], ret)

/-- Highest buffer index written while building the command: the last strcat leaves the terminating NUL byte at the index equal to the final string length. strcat performs no bounds check and never truncates. -/
def maxIndexWritten (args : List String) : Nat := (buildCommand args).length

/-- The construction stays inside the fixed buffer exactly when every written index is below bufferSize. -/
def writesInBounds (args : List String) : Prop := maxIndexWritten args < bufferSize

/-- Characters the shell never treats specially: alphanumerics and a few plain punctuation characters. -/
def safeChar (c : Char) : Bool := c.isAlphanum || ['-', '_', '=', '.', '/', ':'].contains c

/-- Appending strings concatenates their character data. -/
lemma strData_append (s t : String) : (s ++ t).data = s.data ++ t.data := by
  cases s
  cases t
  rfl

/-- Length of an append of strings. -/
lemma strLength_append (s t : String) : (s ++ t).length = s.length + t.length := by
  show (s ++ t).data.length = s.data.length + t.data.length
  rw [strData_append, List.length_append]

/-- Rebuilding a string from its character data gives the string back. -/
lemma strMk_data (s : String) : String.mk s.data = s := rfl

/-- Length of the command built by the fold, starting from any string. -/
lemma buildCommand_foldl_length (args : List String) : ∀ s : String,
    (args.foldl (fun cmd a => cmd ++ " " ++ a) s).length =
      s.length + (args.map (fun a => a.length + 1)).sum := by
  induction args with
  | nil => intro s; simp
  | cons a as ih =>
    intro s
    simp only [List.foldl_cons, List.map_cons, List.sum_cons]
    rw [ih (s ++ " " ++ a), strLength_append, strLength_append]
    have h1 : (" " : String).length = 1 := rfl
    rw [h1]
    omega

/-- Length of the built command: the fixed prefix plus one separator byte per argument plus the argument lengths. -/
lemma buildCommand_length (args : List String) :
    (buildCommand args).length = 15 + (args.map (fun a => a.length + 1)).sum := by
  unfold buildCommand
  rw [buildCommand_foldl_length]
  rfl

/-- Processing a run of non space characters just moves it into the accumulator. -/
lemma splitAux_append (w : List Char) (hw : ' ' ∉ w) :
    ∀ cs acc : List Char, splitAux (w ++ cs) acc = splitAux cs (w.reverse ++ acc) := by
  induction w with
  | nil => intro cs acc; simp
  | cons c w ih =>
    intro cs acc
    have hc : c ≠ ' ' := fun h => hw (h ▸ List.mem_cons_self c w)
    have hw2 : ' ' ∉ w := fun h => hw (List.mem_cons_of_mem c h)
    show splitAux (c :: (w ++ cs)) acc = _
    rw [splitAux]
    simp only [hc, if_false, ih hw2 cs (c :: acc), List.reverse_cons, List.append_assoc,
      List.singleton_append]

/-- A space flushes a nonempty accumulator as a completed field. -/
lemma splitAux_flush (cs acc : List Char) (h : acc ≠ []) :
    splitAux (' ' :: cs) acc = acc.reverse :: splitAux cs [] := by
  rw [splitAux]
  simp [h]

/-- Splitting a string of nonempty space free words, each preceded by one space, starting from a nonempty accumulator, yields the accumulated field followed by the words. -/
lemma splitAux_words (ws : List (List Char)) :
    (∀ w ∈ ws, w ≠ [] ∧ ' ' ∉ w) → ∀ acc : List Char, acc ≠ [] →
      splitAux ((ws.map (fun w => ' ' :: w)).flatten) acc = acc.reverse :: ws := by
  induction ws with
  | nil =>
    intro _ acc hacc
    simp [splitAux, hacc]
  | cons w ws ih =>
    intro hws acc hacc
    obtain ⟨hw1, hw2⟩ := hws w (List.mem_cons_self w ws)
    simp only [List.map_cons, List.flatten_cons, List.cons_append]
    rw [splitAux_flush _ _ hacc, splitAux_append w hw2, List.append_nil,
      ih (fun x hx => hws x (List.mem_cons_of_mem w hx)) w.reverse
        (by simpa using hw1)]
    simp

/-- Every field produced by the splitter is free of spaces, provided the accumulator is. -/
lemma splitAux_no_space (cs : List Char) :
    ∀ acc f : List Char, ' ' ∉ acc → f ∈ splitAux cs acc → ' ' ∉ f := by
  induction cs with
  | nil =>
    intro acc f hacc hf
    by_cases h : acc = []
    · simp [splitAux, h] at hf
    · simp only [splitAux, h, if_false, List.mem_singleton] at hf
      subst hf
      simpa using hacc
  | cons c cs ih =>
    intro acc f hacc hf
    by_cases hc : c = ' '
    · subst hc
      by_cases h : acc = []
      · rw [splitAux] at hf
        simp only [if_pos rfl, h, if_pos rfl] at hf
        exact ih [] f (by simp) hf
      · rw [splitAux] at hf
        simp only [if_pos rfl, h, if_false] at hf
        rcases List.mem_cons.mp hf with heq | hf2
        · subst heq
          simpa using hacc
        · exact ih [] f (by simp) hf2
    · rw [splitAux] at hf
      simp only [hc, if_false] at hf
      refine ih (c :: acc) f ?_ hf
      intro hm
      rcases List.mem_cons.mp hm with h1 | h1
      · exact hc h1.symm
      · exact hacc h1

/-- Character data of the built command: the fixed prefix followed by each argument preceded by one space. -/
lemma buildCommand_data (args : List String) :
    (buildCommand args).data =
      initialCommand.data ++ ((args.map (fun a => ' ' :: a.data)).flatten) := by
  unfold buildCommand
  generalize initialCommand = s
  induction args generalizing s with
  | nil => simp
  | cons a as ih =>
    simp only [List.foldl_cons, List.map_cons, List.flatten_cons]
    rw [ih (s ++ " " ++ a), strData_append, strData_append]
    have h1 : (" " : String).data = [' '] := rfl
    rw [h1]
    simp

/-- Shell word splitting of the built command recovers the interpreter, the script, and all arguments in order, whenever every argument is nonempty and free of spaces. -/
lemma shellFields_buildCommand (args : List String)
    (h : ∀ a ∈ args, a.data ≠ [] ∧ ' ' ∉ a.data) :
    shellFields (buildCommand args) = "python3" :: "main.py" :: args := by
  unfold shellFields
  have hinit : initialCommand.data = "python3".data ++ [' '] ++ "main.py".data := by decide
  have hdata : (buildCommand args).data =
      "python3".data ++
        ((("main.py".data :: args.map String.data).map (fun w => ' ' :: w)).flatten) := by
    rw [buildCommand_data, hinit]
    simp [List.map_map, Function.comp_def]
  rw [hdata, splitAux_append "python3".data (by decide), List.append_nil]
  have hws : ∀ w ∈ "main.py".data :: args.map String.data, w ≠ [] ∧ ' ' ∉ w := by
    intro w hw
    rcases List.mem_cons.mp hw with rfl | hw2
    · exact ⟨by decide, by decide⟩
    · rcases List.mem_map.mp hw2 with ⟨a, ha, rfl⟩
      exact h a ha
  rw [splitAux_words _ hws _ (by decide)]
  simp only [List.reverse_reverse, List.map_cons, List.map_map]
  refine congrArg₂ _ rfl (congrArg₂ _ rfl ?_)
  have : (String.mk ∘ String.data) = id := funext strMk_data
  rw [this, List.map_id]

/-- Empty character data means the empty string. -/
lemma strData_eq_nil (a : String) (h : a.data = []) : a = "" := by
  cases a
  exact congrArg String.mk h

/-- Claim C1, counterexample: for the input list with the single element containing a space, the child argument vector is python3, main.py, a, b, and the element itself is not among the child arguments, so it is not passed as a single discrete argument. -/
theorem claim_C1_counterexample :
    shellFields (buildCommand ["a b"]) = ["python3", "main.py", "a", "b"] ∧
      ("a b" : String) ∉ shellFields (buildCommand ["a b"]) := by
  constructor
  · decide
  · decide

/-- Claim C1, amended: arguments are concatenated with single space separators into one shell interpreted command string, so an input element that contains a space character is never forwarded to the child as a single discrete argument: it does not occur in the child argument vector at all. -/
theorem claim_C1_space_never_discrete (args : List String) (a : String)
    (_hmem : a ∈ args) (hsp : ' ' ∈ a.data) :
    a ∉ shellFields (buildCommand args) := by
  intro hin
  unfold shellFields at hin
  rcases List.mem_map.mp hin with ⟨l, hl, heq⟩
  rw [← heq] at hsp
  exact splitAux_no_space _ [] l (by simp) hl hsp

/-- Claim C1, witness for the amended theorem at the concrete input with one space containing element. -/
theorem claim_C1_witness :
    ("a b" : String) ∈ (["a b"] : List String) ∧ ' ' ∈ ("a b" : String).data ∧
      ("a b" : String) ∉ shellFields (buildCommand ["a b"]) :=
  ⟨by decide, by decide, claim_C1_space_never_discrete ["a b"] "a b" (by decide) (by decide)⟩

/-- Claim C2: the code returns the raw wait status from system() out of main, so for every child that exits normally with code N the process exit code is the low eight bits of N times 256, which is 0 and not N; the claimed mirroring fails for every nonzero N. -/
theorem claim_C2_raw_status_zeroes_exit (sys : String → ChildOutcome) (args : List String)
    (N : Nat) (h : sys (buildCommand args) = ChildOutcome.exited N) :
    processExitCode (vaultMain sys args).2 = 0 := by
  show processExitCode (waitStatus (sys (buildCommand args))) = 0
  rw [h]
  show ((N : Int) % 256) * 256 % 256 = 0
  exact Int.mul_emod_left _ _

/-- Claim C2, witness: with a child exiting 2 after the spec scenario arguments, the program exits 0 rather than 2. -/
theorem claim_C2_witness :
    (fun _ : String => ChildOutcome.exited 2) (buildCommand ["build", "--verbose"]) =
        ChildOutcome.exited 2 ∧
      processExitCode (vaultMain (fun _ => ChildOutcome.exited 2) ["build", "--verbose"]).2 = 0 :=
  ⟨rfl, claim_C2_raw_status_zeroes_exit (fun _ => ChildOutcome.exited 2)
    ["build", "--verbose"] 2 rfl⟩

/-- Claim C3, counterexample: the empty argument is dropped from the Invocation: with input consisting of one empty string, the child argument vector is just python3 and main.py, not python3, main.py and the empty string. -/
theorem claim_C3_counterexample :
    shellFields (buildCommand [""]) = ["python3", "main.py"] ∧
      shellFields (buildCommand [""]) ≠ ["python3", "main.py", ""] := by
  constructor
  · decide
  · decide

/-- Claim C3, amended: whenever every supplied argument is nonempty and built from safe characters (alphanumerics and a few plain punctuation characters), the Invocation received by the child equals the interpreter, the script, and the arguments in exactly the order supplied, with nothing dropped, reordered or deduplicated; arguments with embedded spaces are split and empty arguments are dropped, so the unconditional claim fails. -/
theorem claim_C3_invocation_order (args : List String)
    (h : ∀ a ∈ args, a ≠ "" ∧ ∀ c ∈ a.data, safeChar c = true) :
    shellFields (buildCommand args) = "python3" :: "main.py" :: args := by
  refine shellFields_buildCommand args (fun a ha => ?_)
  obtain ⟨h1, h2⟩ := h a ha
  refine ⟨fun hd => h1 (strData_eq_nil a hd), fun hs => absurd (h2 ' ' hs) (by decide)⟩

/-- Claim C3, witness for the amended theorem at the spec scenario input. -/
theorem claim_C3_witness :
    (∀ a ∈ (["build", "--verbose"] : List String), a ≠ "" ∧ ∀ c ∈ a.data, safeChar c = true) ∧
      shellFields (buildCommand ["build", "--verbose"]) =
        ["python3", "main.py", "build", "--verbose"] :=
  ⟨by decide, claim_C3_invocation_order ["build", "--verbose"] (by decide)⟩

/-- Claim C4, counterexample: for a single argument of 1100 characters the construction writes up to buffer index 1116, beyond the 1024 byte buffer, and the built command keeps its full 1116 byte length: strcat overflows instead of truncating. -/
theorem claim_C4_counterexample :
    ¬ writesInBounds [String.mk (List.replicate 1100 'a')] ∧
      (buildCommand [String.mk (List.replicate 1100 'a')]).length = 1116 := by
  have hbig : (String.mk (List.replicate 1100 'a')).length = 1100 := by
    show (List.replicate 1100 'a').length = 1100
    exact List.length_replicate 1100 'a'
  have hlen : (buildCommand [String.mk (List.replicate 1100 'a')]).length = 1116 := by
    rw [buildCommand_length]
    simp only [List.map_cons, List.map_nil, List.sum_cons, List.sum_nil, hbig]
    omega
  refine ⟨?_, hlen⟩
  unfold writesInBounds maxIndexWritten bufferSize
  rw [hlen]
  omega

/-- Claim C4, amended: the construction stays inside the 1024 byte buffer exactly when the fixed 15 byte prefix plus one separator byte and the length of each argument totals less than 1024; beyond that bound strcat writes out of bounds, and it never truncates. -/
theorem claim_C4_bounds_iff (args : List String) :
    writesInBounds args ↔ 15 + (args.map (fun a => a.length + 1)).sum < 1024 := by
  unfold writesInBounds maxIndexWritten bufferSize
  rw [buildCommand_length]

/-- Claim C5: on launch failure the shell exits 127 and system() returns 127 times 256, but main returns that raw status, so the process exit code is 0, not a reserved nonzero sentinel; moreover the trace of the program contains no write to standard error, and a child killed by signal 9 yields exit code 9, which is not a sentinel distinct from normal child exit codes. -/
theorem claim_C5_launch_failure_behavior (sys : String → ChildOutcome) (args : List String)
    (h : sys (buildCommand args) = ChildOutcome.execFailed) :
    processExitCode (vaultMain sys args).2 = 0 ∧
      (∀ m : String, Effect.writeStderr m ∉ (vaultMain sys args).1) ∧
      processExitCode (waitStatus (ChildOutcome.signaled 9)) = 9 := by
  refine ⟨?_, ?_, by decide⟩
  · show processExitCode (waitStatus (sys (buildCommand args))) = 0
    rw [h]
    decide
  · intro m hm
    simp [vaultMain] at hm

/-- Claim C5, witness: with the interpreter missing (the shell fails to exec), the program exits 0. -/
theorem claim_C5_witness :
    (fun _ : String => ChildOutcome.execFailed) (buildCommand []) = ChildOutcome.execFailed ∧
      processExitCode (vaultMain (fun _ => ChildOutcome.execFailed) []).2 = 0 :=
  ⟨rfl, (claim_C5_launch_failure_behavior (fun _ => ChildOutcome.execFailed) [] rfl).1⟩

/-- Claim C6: with no arguments the command buffer is exactly the initial python3 main.py string, whose word split is the interpreter and the script with nothing appended, and when the child exits 0 the program exits 0. -/
theorem claim_C6_empty_args (sys : String → ChildOutcome)
    (h : sys (buildCommand []) = ChildOutcome.exited 0) :
    shellFields (buildCommand []) = ["python3", "main.py"] ∧
      processExitCode (vaultMain sys []).2 = 0 := by
  refine ⟨by decide, ?_⟩
  show processExitCode (waitStatus (sys (buildCommand []))) = 0
  rw [h]
  decide

/-- Claim C6, witness at the concrete environment in which the child exits 0. -/
theorem claim_C6_witness :
    (fun _ : String => ChildOutcome.exited 0) (buildCommand []) = ChildOutcome.exited 0 ∧
      (shellFields (buildCommand []) = ["python3", "main.py"] ∧
        processExitCode (vaultMain (fun _ => ChildOutcome.exited 0) []).2 = 0) :=
  ⟨rfl, claim_C6_empty_args (fun _ => ChildOutcome.exited 0) rfl⟩

/-- Claim C7: the embedded program is a pure function of the argument list and the environment, so two runs with identical argument lists build the identical command string and, with a deterministic child, produce identical exit codes. -/
theorem claim_C7_deterministic (sys : String → ChildOutcome) (args1 args2 : List String)
    (h : args1 = args2) :
    buildCommand args1 = buildCommand args2 ∧
      processExitCode (vaultMain sys args1).2 = processExitCode (vaultMain sys args2).2 := by
  subst h
  exact ⟨rfl, rfl⟩

/-- Claim C7, witness at a concrete repeated run. -/
theorem claim_C7_witness :
    (["x"] : List String) = ["x"] ∧
      (buildCommand ["x"] = buildCommand ["x"] ∧
        processExitCode (vaultMain (fun _ => ChildOutcome.exited 3) ["x"]).2 =
          processExitCode (vaultMain (fun _ => ChildOutcome.exited 3) ["x"]).2) :=
  ⟨rfl, claim_C7_deterministic (fun _ => ChildOutcome.exited 3) ["x"] ["x"] rfl⟩

/-- Claim C8: for every argument list and environment, the effect trace of the program is exactly one system() call on the built command: one child is created and awaited, and no other effect, in particular no retry and no second spawn, occurs on any path. -/
theorem claim_C8_single_spawn (sys : String → ChildOutcome) (args : List String) :
    (vaultMain sys args).1 = [Effect.system (buildCommand args)] ∧
      (vaultMain sys args).1.length = 1 :=
  ⟨rfl, rfl⟩

/-- Claim C9: the command construction is not injective: the distinct argument lists consisting of the single element a b and of the two elements a and b build the identical command string, so the child cannot distinguish them. -/
theorem claim_C9_not_injective : ¬ Function.Injective buildCommand := by
  intro h
  have h2 : (["a b"] : List String) = ["a", "b"] := @h ["a b"] ["a", "b"] (by decide)
  exact absurd h2 (by decide)

/-- Claim C10: the value returned from main is exactly the raw status delivered by the system() call, with no transformation, masking or mapping in between. -/
theorem claim_C10_raw_return (sys : String → ChildOutcome) (args : List String) :
    (vaultMain sys args).2 = waitStatus (sys (buildCommand args)) :=
  rfl
